import Mathlib

/-!
Verification development for the LinDream bot gateway.

This file gives a shallow embedding, in Lean 4, of the message dispatch and
concurrency-control core of the repository:

* `modules/rate_limiter.py` (`RateLimiter`),
* `src/pipeline.py` (`PipelineContext`, `Pipeline.execute` and the five
  default stages),
* `src/event_bus.py` (`Event`, `EventBus.publish`, `EventBus._dispatch_event`),
* `modules/plugin_system.py` (`PluginManager.handle_plugin_messages`),
* `src/message_handler.py` (the per-conversation lock discipline of
  `handle_message_with_isolation`).

Python floats for wall-clock time are idealised as integer milliseconds
(every comparison the embedded code performs is invariant under this
strictly monotone change of unit); Python dicts
keyed by strings are association lists; a Python `None`-able value is an
`Option`; a Python call that can raise is a value of `Except`.  Mutation of
an object is explicit state passing: a method that mutates `self` and may
also raise returns the mutated state together with an `Except` outcome, so
that partial mutation before a raise is preserved, as in Python.
-/

namespace LinDream

/-- Replace the binding of `k` (or append it) in an association list.
Embeds assignment `d[k] = v` on a Python dict. -/
def alSet (k : String) (v : α) : List (String × α) → List (String × α)
  | [] => [(k, v)]
  | (k2, v2) :: rest => if k2 = k then (k, v) :: rest else (k2, v2) :: alSet k v rest

/-- Remove the binding of `k`.  Embeds `del d[k]` on a Python dict. -/
def alErase (k : String) : List (String × α) → List (String × α)
  | [] => []
  | (k2, v2) :: rest => if k2 = k then rest else (k2, v2) :: alErase k rest

/-- Fetch the binding of `k`.  Embeds `d.get(k)` / `k in d` on a Python
dict keyed by strings. -/
def alGet (k : String) : List (String × α) → Option α
  | [] => none
  | (k2, v) :: rest => if k2 = k then some v else alGet k rest

/-- Keep the last `n` elements of a list.  A Python `deque(xs, maxlen=n)`
keeps exactly the rightmost `n` elements of `xs`. -/
def takeRight (n : Nat) (l : List α) : List α := l.drop (l.length - n)

/-- Python truthiness of an optional string (`if user_id:`): `None` and the
empty string are falsy. -/
def pyTruthyStr : Option String → Bool
  | none => false
  | some s => s ≠ ""

/-- Decidable equality of exception-or-value outcomes. -/
instance {ε α : Type} [DecidableEq ε] [DecidableEq α] : DecidableEq (Except ε α) :=
  fun a b =>
    match a, b with
    | .ok x, .ok y =>
      if h : x = y then .isTrue (by rw [h])
      else .isFalse (fun hh => h (by cases hh; rfl))
    | .ok _, .error _ => .isFalse (fun hh => by cases hh)
    | .error _, .ok _ => .isFalse (fun hh => by cases hh)
    | .error x, .error y =>
      if h : x = y then .isTrue (by rw [h])
      else .isFalse (fun hh => h (by cases hh; rfl))

/-- Python character-level helpers.  The embedded code uses them instead
of the built-in `String` functions so that every definition reduces inside
the kernel. -/
def splitCharsGo (p : Char → Bool) : List Char → List Char → List String
  | [], acc => [String.mk acc.reverse]
  | c :: rest, acc =>
    if p c then String.mk acc.reverse :: splitCharsGo p rest []
    else splitCharsGo p rest (c :: acc)

/-- Python `s.split()`: split on whitespace runs, dropping empty fields. -/
def pySplitWs (s : String) : List String :=
  (splitCharsGo Char.isWhitespace s.toList []).filter (· ≠ "")

/-- Python `s.strip()`: drop leading and trailing whitespace. -/
def pyStrip (s : String) : String :=
  String.mk (((s.toList.dropWhile Char.isWhitespace).reverse.dropWhile
    Char.isWhitespace).reverse)

/-- Python `s.startswith(pre)`. -/
def pyStartsWith (s pre : String) : Bool :=
  pre.toList.isPrefixOf s.toList

/-- Drop the first `n` characters of a string (Python `s[n:]`). -/
def pyDrop (s : String) (n : Nat) : String :=
  String.mk (s.toList.drop n)

/-! ## RateLimiter (`modules/rate_limiter.py`) -/

/-- One entry of `RateLimiter.message_rate_trackers`: a `deque` of admission
timestamps (oldest first) with its `maxlen`.  Wall-clock times are measured
in integer milliseconds throughout the model (the source uses float
seconds; every comparison of the embedded code is invariant under this
change of unit), so the 1-second sliding window of the source is 1000 and
the default 5-second cooldown is 5000. -/
structure Tracker where
  maxlen : Nat
  entries : List Int
  deriving DecidableEq, Repr

/-- `deque.append` with a `maxlen`: the leftmost element is discarded when
the deque is full (a `maxlen`-0 deque stays empty). -/
def Tracker.push (t : Tracker) (x : Int) : Tracker :=
  { t with entries := takeRight t.maxlen (t.entries ++ [x]) }

/-- `deque(old, maxlen=m)` for a non-negative `m`: keeps the rightmost `m`
entries (source line 72, the maxlen adjustment). -/
def Tracker.resize (t : Tracker) (m : Nat) : Tracker :=
  { maxlen := m, entries := takeRight m t.entries }

/-- The lazy eviction loop of `check_rate_limit` (source lines 76-77):
pop entries strictly older than 1 second (1000 ms) from the left. -/
def evictOld (now : Int) : List Int → List Int
  | [] => []
  | t :: rest => if now - t > 1000 then evictOld now rest else t :: rest

/-- Which branch of `check_rate_limit` produced the decision.  The source
returns Chinese format strings; only the branch identity matters here. -/
inductive RLReason
  | cooldownActive
  | burstCooldown
  | rateLimited
  | allowed
  deriving DecidableEq, Repr

/-- State of a `RateLimiter` object: configuration read in `__init__` plus
the three tracking dicts and the counters. -/
structure RateLimiter where
  messageRateLimit : Int
  burstLimit : Nat
  cooldownPeriod : Int
  trackers : List (String × Tracker)
  cooldowns : List (String × Int)
  userLimits : List (String × Int)
  statsTotal : Nat
  statsBlocked : Nat
  statsCooldownActivations : Nat
  deriving DecidableEq, Repr

/-- A fresh `RateLimiter(config_manager)` under the default configuration
(`message_rate_limit=10`, `burst_limit=20`, `cooldown_period=5` seconds,
that is 5000 ms). -/
def RateLimiter.init : RateLimiter :=
  { messageRateLimit := 10, burstLimit := 20, cooldownPeriod := 5000
    trackers := [], cooldowns := [], userLimits := []
    statsTotal := 0, statsBlocked := 0, statsCooldownActivations := 0 }

/-- `RateLimiter.set_user_limit(user_id, limit)`. -/
def RateLimiter.setUserLimit (rl : RateLimiter) (userId : String) (limit : Int) :
    RateLimiter :=
  { rl with userLimits := alSet userId limit rl.userLimits }

/-- `RateLimiter.get_user_limit(user_id)`. -/
def RateLimiter.getUserLimit (rl : RateLimiter) (userId : String) : Int :=
  (alGet userId rl.userLimits).getD rl.messageRateLimit

/-- The effective limit of a check (source line 65):
`self.get_user_limit(user_id) if user_id else self.message_rate_limit`,
with Python truthiness of the id. -/
def RateLimiter.effectiveLimit (rl : RateLimiter) (userId : Option String) : Int :=
  match userId with
  | some u => if u ≠ "" then rl.getUserLimit u else rl.messageRateLimit
  | none => rl.messageRateLimit

/-- The body of `check_rate_limit` after the cooldown check (source lines
64-94): fetch or create the tracker (the `defaultdict` lookup inserts a
fresh deque with `maxlen = burst_limit`), adjust its maxlen to the
effective limit (`deque(old, maxlen=m)` raises `ValueError` for a negative
`m`; mutations already performed persist, as the method has no exception
handler), evict stale entries, and apply the limit checks. -/
def RateLimiter.checkAfterCooldown (rl : RateLimiter) (chatKey : String)
    (userId : Option String) (now : Int) :
    RateLimiter × Except String (Bool × RLReason) :=
  let userLimit : Int := rl.effectiveLimit userId
  let tracker0 : Tracker :=
    (alGet chatKey rl.trackers).getD { maxlen := rl.burstLimit, entries := [] }
  let rl := { rl with trackers := alSet chatKey tracker0 rl.trackers }
  -- maxlen adjustment (source lines 69-73); a negative maxlen raises
  if (tracker0.maxlen : Int) ≠ userLimit ∧ userLimit < 0 then
    (rl, .error "ValueError: maxlen must be non-negative")
  else
    let tracker1 :=
      if (tracker0.maxlen : Int) ≠ userLimit then
        tracker0.resize userLimit.toNat
      else tracker0
    let tracker2 := { tracker1 with entries := evictOld now tracker1.entries }
    let rl := { rl with trackers := alSet chatKey tracker2 rl.trackers }
    -- limit checks (source lines 80-90)
    if (tracker2.entries.length : Int) ≥ userLimit then
      if (tracker2.entries.length : Int) ≥ (rl.burstLimit : Int) then
        ({ rl with
            cooldowns := alSet chatKey now rl.cooldowns
            statsCooldownActivations := rl.statsCooldownActivations + 1
            statsBlocked := rl.statsBlocked + 1 },
         .ok (false, .burstCooldown))
      else
        ({ rl with statsBlocked := rl.statsBlocked + 1 },
         .ok (false, .rateLimited))
    else
      -- record this request (source line 93)
      ({ rl with trackers := alSet chatKey (tracker2.push now) rl.trackers },
       .ok (true, .allowed))

/-- `RateLimiter.check_rate_limit(chat_key, user_id)` at wall-clock time
`now`: count the request, serve an active cooldown (source lines 56-59),
clear an expired one (lines 61-62), then run the limit checks. -/
def RateLimiter.checkRateLimit (rl : RateLimiter) (chatKey : String)
    (userId : Option String) (now : Int) :
    RateLimiter × Except String (Bool × RLReason) :=
  let rl := { rl with statsTotal := rl.statsTotal + 1 }
  match alGet chatKey rl.cooldowns with
  | some t =>
      if now - t < rl.cooldownPeriod then
        ({ rl with statsBlocked := rl.statsBlocked + 1 },
         .ok (false, .cooldownActive))
      else
        ({ rl with cooldowns := alErase chatKey rl.cooldowns
          }).checkAfterCooldown chatKey userId now
  | none => rl.checkAfterCooldown chatKey userId now

/-- One call against the limiter: an admission check or a per-user override. -/
inductive RLOp
  | check (chatKey : String) (userId : Option String) (now : Int)
  | setLimit (userId : String) (limit : Int)
  deriving DecidableEq, Repr

/-- Run a sequence of limiter calls, keeping the state a raising
`check_rate_limit` call leaves behind. -/
def RateLimiter.runOps (rl : RateLimiter) : List RLOp → RateLimiter
  | [] => rl
  | .check k u t :: rest => ((rl.checkRateLimit k u t).1).runOps rest
  | .setLimit u l :: rest => (rl.setUserLimit u l).runOps rest

/-- Largest per-user limit installed by a call sequence (0 when none). -/
def opsMaxLimit : List RLOp → Nat
  | [] => 0
  | .check _ _ _ :: rest => opsMaxLimit rest
  | .setLimit _ l :: rest => max l.toNat (opsMaxLimit rest)

/-- Run `check_rate_limit` for one key at each time in the list, collecting
the per-call outcomes. -/
def RateLimiter.runChecks (rl : RateLimiter) (chatKey : String)
    (userId : Option String) :
    List Int → RateLimiter × List (Except String (Bool × RLReason))
  | [] => (rl, [])
  | t :: rest =>
      let (rl2, r) := rl.checkRateLimit chatKey userId t
      let (rl3, rs) := rl2.runChecks chatKey userId rest
      (rl3, r :: rs)

/-- The 25 rapid calls of the scenario in the spec: one call per
millisecond, all within 24 ms ≪ 200 ms. -/
def rapidTimes : List Int := (List.range 25).map (fun i => (i : Int))

/-! ## Pipeline (`src/pipeline.py`) -/

/-- One段 of an OneBot message array.  The source handles dict items keyed
by a `type` tag; the tags exercised by the core are embedded as
constructors (JSON-card items, whose formatting parses embedded JSON, are
outside the model). -/
inductive MsgItem
  | textItem (s : String)
  | atItem (qq : String)
  | replyItem (id : String)
  | imageItem (url : String)
  | recordItem
  | videoItem
  deriving DecidableEq, Repr

/-- The fields of an inbound event dict that the embedded core reads. -/
structure EventData where
  messageType : String
  message : List MsgItem
  senderUserId : String
  groupId : String
  deriving DecidableEq, Repr

/-- `_extract_content`: concatenation of the `text` segments (identical
helper in `PreprocessStage`, `ContentModerationStage`, `CommandStage` and
`LLMRequestStage`). -/
def extractContent (d : EventData) : String :=
  (d.message.map (fun m => match m with | .textItem s => s | _ => "")).foldl (· ++ ·) ""

/-- The at-bot scan shared by `CommandStage.process` and
`LLMRequestStage.process`: some message item is an `at` whose `qq` equals
the bot id. -/
def isAtBot (d : EventData) (botId : String) : Bool :=
  d.message.any (fun m => match m with | .atItem qq => qq = botId | _ => false)

/-- A metadata value stored in `PipelineContext.metadata`: the stages store
strings and the `command_processed` boolean flag. -/
inductive MetaVal
  | vs (s : String)
  | vb (b : Bool)
  deriving DecidableEq, Repr

/-- Python truthiness of `context.get(key)`: absent and `None` are falsy,
a string is truthy iff non-empty, `True`/`False` are themselves. -/
def pyTruthyMeta : Option MetaVal → Bool
  | none => false
  | some (.vs s) => s ≠ ""
  | some (.vb b) => b

/-- `PipelineContext`: the per-event mutable scratch space. -/
structure PipelineContext where
  eventData : EventData
  botId : String
  metadata : List (String × MetaVal)
  stopped : Bool := false
  error : Option String := none
  deriving DecidableEq, Repr

/-- `PipelineContext.stop()`. -/
def PipelineContext.stop (c : PipelineContext) : PipelineContext :=
  { c with stopped := true }

/-- `PipelineContext.set_error(error)`: records the error and stops. -/
def PipelineContext.setError (c : PipelineContext) (e : String) : PipelineContext :=
  { c with error := some e, stopped := true }

/-- `PipelineContext.is_stopped`. -/
def PipelineContext.isStopped (c : PipelineContext) : Bool := c.stopped

/-- `PipelineContext.has_error`. -/
def PipelineContext.hasError (c : PipelineContext) : Bool := c.error.isSome

/-- `PipelineContext.get(key)`. -/
def PipelineContext.get (c : PipelineContext) (k : String) : Option MetaVal :=
  alGet k c.metadata

/-- `PipelineContext.set(key, value)`. -/
def PipelineContext.set (c : PipelineContext) (k : String) (v : MetaVal) :
    PipelineContext :=
  { c with metadata := alSet k v c.metadata }

/-- One mutation applied to a context during a run: the operations the
`PipelineContext` dataclass exposes to stages. -/
inductive CtxOp
  | stopOp
  | setErrorOp (e : String)
  | setOp (k : String) (v : MetaVal)
  deriving DecidableEq, Repr

/-- Apply one context operation. -/
def applyCtxOp (c : PipelineContext) : CtxOp → PipelineContext
  | .stopOp => c.stop
  | .setErrorOp e => c.setError e
  | .setOp k v => c.set k v

/-- Apply a sequence of context operations left to right. -/
def applyCtxOps (c : PipelineContext) : List CtxOp → PipelineContext
  | [] => c
  | op :: rest => applyCtxOps (applyCtxOp c op) rest

/-- An outbound send performed through the websocket by a stage
(`ResponseStage._send_response` builds `send_group_msg`/`send_private_msg`). -/
structure SentMsg where
  isGroup : Bool
  target : String
  payload : String
  deriving DecidableEq, Repr

/-- What one invocation of `stage.process(context)` does: the context it
leaves behind, the sends it performed, and the exception it raised, if
any (mutations made before the raise persist, as in Python). -/
structure StageOutcome where
  ctx : PipelineContext
  sends : List SentMsg
  exn : Option String
  deriving Repr

/-- A pipeline stage: its `stage_name`, its `can_skip` predicate, and its
`process` body. -/
structure Stage where
  stageName : String
  canSkip : PipelineContext → Bool
  run : PipelineContext → StageOutcome

/-- Accumulated result of the stage loop of `Pipeline.execute`: the final
context, the list of stages whose `process` body ran (the stages that get
an entry in the per-stage timing or error statistics), and the sends. -/
structure AuxResult where
  ctx : PipelineContext
  executed : List String
  sends : List SentMsg

/-- The stage loop of `Pipeline.execute` (source lines 136-169): before
each stage check `is_stopped` and break; skip a stage whose `can_skip`
holds; run the stage, and on an exception record it with
`context.set_error` and continue the loop (which then breaks at the next
`is_stopped` check, since `set_error` stops the context). -/
def executeStages : List Stage → PipelineContext → AuxResult
  | [], ctx => ⟨ctx, [], []⟩
  | s :: rest, ctx =>
    if ctx.isStopped then ⟨ctx, [], []⟩
    else if s.canSkip ctx then executeStages rest ctx
    else
      let o := s.run ctx
      match o.exn with
      | some e =>
          let r := executeStages rest (o.ctx.setError e)
          ⟨r.ctx, s.stageName :: r.executed, o.sends ++ r.sends⟩
      | none =>
          let r := executeStages rest o.ctx
          ⟨r.ctx, s.stageName :: r.executed, o.sends ++ r.sends⟩

/-- The dictionary returned by `Pipeline.execute` (success flag and error
taken from the final context), extended with the executed-stage and send
bookkeeping of the run. -/
structure ExecResult where
  success : Bool
  error : Option String
  executed : List String
  sends : List SentMsg
  finalCtx : PipelineContext

/-- `Pipeline.execute(context)` over an ordered stage list. -/
def pipelineExecute (stages : List Stage) (ctx : PipelineContext) : ExecResult :=
  let r := executeStages stages ctx
  { success := !r.ctx.hasError, error := r.ctx.error
    executed := r.executed, sends := r.sends, finalCtx := r.ctx }

/-! ### The five default stages (`create_default_pipeline`) -/

/-- `PreprocessStage.process`: the voice and image preprocessors are the
literal stubs of the source (`_voice_to_text` returns "语音内容",
`_describe_image` returns "图片描述"); each result is stored in the
metadata when the corresponding segment kind is present. -/
def preprocessStage : Stage where
  stageName := "Preprocess"
  canSkip := fun _ => false
  run := fun ctx =>
    let d := ctx.eventData
    let hasVoice := d.message.any (fun m => m = .recordItem)
    let hasImage := d.message.any (fun m => match m with | .imageItem _ => true | _ => false)
    let c1 := if hasVoice then ctx.set "voice_text" (.vs "语音内容") else ctx
    let c2 := if hasImage then c1.set "image_description" (.vs "图片描述") else c1
    ⟨c2, [], none⟩

/-- A content moderator collaborator: `check_content` classifies (it may
raise) and `filter_content` rewrites. -/
structure Moderator where
  checkIsSafe : String → Except String (Bool × String)
  filterContent : String → String

/-- `ContentModerationStage.process`: with empty content or no moderator it
does nothing; an unsafe verdict stores the reason, stops the context (the
warning sender `_send_warning` is a `pass` stub); a safe verdict stores the
filtered content; an exception from the moderator is caught and logged. -/
def contentModerationStage (moderator : Option Moderator) : Stage where
  stageName := "ContentModeration"
  canSkip := fun _ => false
  run := fun ctx =>
    let content := extractContent ctx.eventData
    if content = "" then ⟨ctx, [], none⟩
    else
      match moderator with
      | none => ⟨ctx, [], none⟩
      | some m =>
        match m.checkIsSafe content with
        | .error _ => ⟨ctx, [], none⟩
        | .ok (isSafe, reason) =>
          if !isSafe then
            ⟨((ctx.set "moderation_result" (.vs reason)).stop), [], none⟩
          else
            ⟨ctx.set "filtered_content" (.vs (m.filterContent content)), [], none⟩

/-- A parsed command (`_parse_command` result). -/
structure Cmd where
  cmdName : String
  args : List String
  deriving DecidableEq, Repr

/-- `CommandStage._parse_command(content)`: drop the leading "/", strip,
and split into name and arguments. -/
def parseCommand (content : String) : Option Cmd :=
  if pyStartsWith content "/" then
    let body := pyStrip (pyDrop content 1)
    if body = "" then none
    else
      match pySplitWs body with
      | [] => none
      | n :: args => some ⟨n, args⟩
  else none

/-- What `CommandStage._execute_command` does for one command: mutates the
context and returns the textual result or raises. -/
structure CmdOutcome where
  ctx : PipelineContext
  result : Except String String

/-- An abstraction of `CommandStage._execute_command`: the per-command
handlers consult external collaborators (config, plugin manager), so the
executor is a parameter; `helpCmdExec` below embeds the self-contained
`help` branch literally. -/
def CmdExec := Cmd → PipelineContext → CmdOutcome

/-- The help text of `CommandStage._get_help_text`. -/
def helpText : String :=
  "🤖 LinDream 帮助信息\n\n基础指令：\n/help - 显示此帮助信息\n/limit - 查看当前权限等级\n/plugin - 显示已加载的插件列表\n/persona ls - 列出所有人格\n/persona <序号> - 切换人格（使用序号）\n/stats - 查看机器人统计信息（新增）\n/reset - 重载配置和插件（管理员以上权限）\n\n权限管理指令：\n/op <QQ号> - 设置管理员（仅主人可用）\n/deop <QQ号> - 移除管理员（仅主人可用）\n/cfg <插件名> <参数名> <值> - 设置插件配置（仅管理员可用）\n\n插件管理：\n/reload <插件名> - 重新加载指定插件\n/unload <插件名> - 卸载指定插件\n/load <插件名> - 加载指定插件\n\nAI聊天：\n在群聊中@机器人并输入消息\n或使用 % 前缀：%你好，请自我介绍\n\n使用方法：\n• 直接发送指令，如：/help"

/-- The `help` branch of `_execute_command` (source lines 738-742): store
the help text as `command_result`, flag `command_processed`, and return the
text.  Any other command name is routed to the collaborator-dependent
handlers, which this executor leaves unhandled (`command_processed` is
flagged and the unavailable-handler text returned, the behaviour of the
source when no handler is stashed in the context metadata). -/
def helpCmdExec : CmdExec := fun cmd ctx =>
  if cmd.cmdName = "help" then
    ⟨(ctx.set "command_result" (.vs helpText)).set "command_processed" (.vb true),
     .ok helpText⟩
  else
    ⟨ctx.set "command_processed" (.vb true), .ok "指令处理器不可用"⟩

/-- `CommandStage.process` (source lines 335-374): detect a leading "/"
(after stripping when the bot was at-mentioned), parse, execute; on success
stash `command_result` and stop the pipeline; on an exception from the
executor stash `command_error` and continue. -/
def commandStage (exec : CmdExec) : Stage where
  stageName := "Command"
  canSkip := fun _ => false
  run := fun ctx =>
    let d := ctx.eventData
    let originalContent := extractContent d
    let content := if isAtBot d ctx.botId then pyStrip originalContent else originalContent
    let isCommand := content ≠ "" ∧ pyStartsWith content "/"
    if isCommand then
      match parseCommand content with
      | none => ⟨ctx, [], none⟩
      | some cmd =>
        let o := exec cmd ctx
        match o.result with
        | .ok r => ⟨((o.ctx.set "command_result" (.vs r)).stop), [], none⟩
        | .error e => ⟨o.ctx.set "command_error" (.vs e), [], none⟩
    else ⟨ctx, [], none⟩

/-- `LLMRequestStage._build_request`: prefer the filtered content, fall
back to the raw text, drop a leading "%" trigger, give up on empty input.
The request is abstracted to the user text it carries. -/
def buildLLMRequest (ctx : PipelineContext) : Option String :=
  let filtered :=
    match ctx.get "filtered_content" with
    | some (.vs s) => if s ≠ "" then some s else none
    | _ => none
  let content :=
    match filtered with
    | some s => s
    | none => extractContent ctx.eventData
  if content = "" then none
  else if pyStartsWith content "%" then some (pyStrip (pyDrop content 1))
  else some content

/-- `LLMRequestStage.process`: skipped when a command was processed or the
pipeline is stopped; runs only when the bot is at-mentioned or the text
carries the "%" trigger; calls the client (a parameter, as the LLM is an
external collaborator) and stores `llm_response` or `llm_error`. -/
def llmRequestStage (client : Option (String → Except String String)) : Stage where
  stageName := "LLMRequest"
  canSkip := fun _ => false
  run := fun ctx =>
    if pyTruthyMeta (ctx.get "command_processed") then ⟨ctx, [], none⟩
    else if ctx.isStopped then ⟨ctx, [], none⟩
    else
      let d := ctx.eventData
      let messageContent := extractContent d
      let shouldCall := isAtBot d ctx.botId || pyStartsWith messageContent "%"
      if !shouldCall then ⟨ctx, [], none⟩
      else
        match buildLLMRequest ctx with
        | none => ⟨ctx, [], none⟩
        | some req =>
          match client with
          | none => ⟨ctx, [], none⟩
          | some f =>
            match f req with
            | .ok resp => ⟨ctx.set "llm_response" (.vs resp), [], none⟩
            | .error e => ⟨ctx.set "llm_error" (.vs e), [], none⟩

/-- `ResponseStage._send_response`: a group message goes to the group id,
a private one to the sender. -/
def mkSend (ctx : PipelineContext) (payload : String) : SentMsg :=
  if ctx.eventData.messageType = "group" then
    ⟨true, ctx.eventData.groupId, payload⟩
  else
    ⟨false, ctx.eventData.senderUserId, payload⟩

/-- `ResponseStage.process` (source lines 967-986): when a command was
processed send the command result (when truthy); otherwise send the LLM
response (when truthy). -/
def responseStage : Stage where
  stageName := "Response"
  canSkip := fun _ => false
  run := fun ctx =>
    if pyTruthyMeta (ctx.get "command_processed") then
      match ctx.get "command_result" with
      | some (.vs r) =>
          if r ≠ "" then ⟨ctx, [mkSend ctx r], none⟩ else ⟨ctx, [], none⟩
      | _ => ⟨ctx, [], none⟩
    else
      match ctx.get "llm_response" with
      | some (.vs r) =>
          if r ≠ "" then ⟨ctx, [mkSend ctx r], none⟩ else ⟨ctx, [], none⟩
      | _ => ⟨ctx, [], none⟩

/-- `create_default_pipeline`: the canonical stage order. -/
def defaultPipeline (moderator : Option Moderator)
    (client : Option (String → Except String String)) (exec : CmdExec) :
    List Stage :=
  [preprocessStage, contentModerationStage moderator, commandStage exec,
   llmRequestStage client, responseStage]

/-! ## EventBus (`src/event_bus.py`) -/

/-- The mutable part of an `Event` object: the propagation flag and the
result slot (`__post_init__`, `stop_propagation`, `set_result`). -/
structure BusEvent (α : Type) where
  evStopped : Bool
  evResult : Option α
  deriving DecidableEq, Repr

/-- A listener callback: it may mutate the event it receives (for example
stop its propagation) and it returns a value or raises.  A Python return
of `None` is `none`. -/
def Listener (α : Type) := BusEvent α → BusEvent α × Except Unit (Option α)

/-- A listener that just returns a value (or `None`). -/
def pureListener (v : Option α) : Listener α := fun e => (e, .ok v)

/-- The listener loop of `EventBus._dispatch_event` (source lines 171-187):
stop when the event is stopped; otherwise run the listener inside its own
error boundary; a non-`None` return value is written into the event with
`set_result` (overwriting any previous value); an exception is counted and
the loop continues.  Returns the event and the error count. -/
def dispatchEvent : List (Listener α) → BusEvent α → BusEvent α × Nat
  | [], e => (e, 0)
  | l :: ls, e =>
    if e.evStopped then (e, 0)
    else
      match l e with
      | (e2, .ok r) =>
          let e3 := match r with
            | some v => { e2 with evResult := some v }
            | none => e2
          dispatchEvent ls e3
      | (e2, .error _) =>
          let (e4, n) := dispatchEvent ls e2
          (e4, n + 1)

/-- The internal bounded queue of the bus (`asyncio.Queue(maxsize=...)`;
`maxsize = 0` means unbounded, events abstracted to naturals). -/
structure BusQueue where
  maxsize : Nat
  queued : List Nat
  totalEvents : Nat
  deriving DecidableEq, Repr

/-- What `await queue.put(item)` does on an `asyncio.Queue`: append when a
slot is free, otherwise suspend the caller until a slot frees up.  Only
`put_nowait` raises `QueueFull`; `await put` never does. -/
inductive PutOutcome
  | completed (q : List Nat)
  | blocksUntilSpace
  deriving DecidableEq, Repr

/-- `asyncio.Queue.put` (awaited). -/
def asyncQueuePut (maxsize : Nat) (q : List Nat) (e : Nat) : PutOutcome :=
  if maxsize ≠ 0 ∧ maxsize ≤ q.length then .blocksUntilSpace
  else .completed (q ++ [e])

/-- Outcome of `EventBus.publish(event)` for the publisher. -/
inductive PublishOutcome
  | enqueued (bus : BusQueue)
  | blockedOnFullQueue
  deriving DecidableEq, Repr

/-- `EventBus.publish` (source lines 100-106): `await self._queue.put(event)`
then count it.  The `except asyncio.QueueFull` drop-and-log branch is
unreachable, because the awaited `put` suspends on a full queue instead of
raising `QueueFull`. -/
def publish (bus : BusQueue) (e : Nat) : PublishOutcome :=
  match asyncQueuePut bus.maxsize bus.queued e with
  | .completed q => .enqueued { bus with queued := q, totalEvents := bus.totalEvents + 1 }
  | .blocksUntilSpace => .blockedOnFullQueue

/-! ## PluginDispatchChain (`modules/plugin_system.py`) -/

/-- A loaded Python plugin as `handle_plugin_messages` sees it: its name
and its optional `on_message` and `on_command` hooks.  A hook receives the
event data (the websocket and bot id are threaded by the caller) and
returns a truthiness-reduced handled flag, or raises. -/
structure Plugin where
  pluginName : String
  onMessage : Option (EventData → Except String Bool)
  onCommand : Option (String → EventData → Except String Bool)

/-- The plugin manager state `handle_plugin_messages` consults: the loaded
plugin list, and the optional `astrbot_plugin_bridge` patch module with its
`process_message` hook.  The `multilang_plugin_manager` module is not part
of the repository, so its `import` raises `ImportError` and those branches
are skipped. -/
structure PluginManager where
  loadedPlugins : List Plugin
  astrbot : Option (EventData → Except String Bool)

/-- `PluginManager._format_message` on a message item list (source lines
340-372): text, at, reply, image and unknown-tag segments. -/
def formatMessage (msg : List MsgItem) : String :=
  (msg.map (fun m => match m with
    | .textItem s => s
    | .atItem qq => "@" ++ qq ++ " "
    | .replyItem id => "[引用:" ++ id ++ "]"
    | .imageItem url => "[图片] " ++ url
    | .recordItem => "[record]"
    | .videoItem => "[video]")).foldl (· ++ ·) ""

/-- Helper for `pySplit2`: split a character list at the separator while
cuts remain. -/
def pySplit2Go (sep : Char) : List Char → List Char → Nat → List String
  | [], acc, _ => [String.mk acc.reverse]
  | c :: rest, acc, cuts =>
    if c = sep ∧ cuts > 0 then
      String.mk acc.reverse :: pySplit2Go sep rest [] (cuts - 1)
    else pySplit2Go sep rest (c :: acc) cuts

/-- Python `s.split(sep, 2)`: split at the first two occurrences of the
separator character. -/
def pySplit2 (s : String) (sep : Char) : List String :=
  pySplit2Go sep s.toList [] 2

/-- The first phase of `handle_plugin_messages` (source lines 236-249): try
each loaded plugin with an `on_message` hook in order; a truthy return
short-circuits with `True`; an exception is caught, logged and the loop
continues with the next plugin. -/
def onMessagePhase (data : EventData) : List Plugin → Bool
  | [] => false
  | p :: rest =>
    match p.onMessage with
    | none => onMessagePhase data rest
    | some f =>
      match f data with
      | .ok true => true
      | .ok false => onMessagePhase data rest
      | .error _ => onMessagePhase data rest

/-- The at-bot `plugin/<name>/<command>` loop of `handle_plugin_messages`
(source lines 302-316): find the named plugin; a truthy `on_command` return
yields `True`; a falsy one lets the loop continue; an exception from
`on_command` is caught, logged — and dispatch returns `True` ("防止继续处理"). -/
def onCommandPhase (data : EventData) (pluginName command : String) :
    List Plugin → Bool
  | [] => false
  | p :: rest =>
    if p.pluginName = pluginName then
      match p.onCommand with
      | none => onCommandPhase data pluginName command rest
      | some f =>
        match f command data with
        | .ok true => true
        | .ok false => onCommandPhase data pluginName command rest
        | .error _ => true
    else onCommandPhase data pluginName command rest

/-- The guard of the at-bot plugin-command fallback (source lines 284-295):
a group message that at-mentions the bot and whose formatted, stripped
content starts with "plugin/". -/
def commandPathGuard (data : EventData) (botId : String) : Bool :=
  data.messageType = "group" &&
    isAtBot data botId &&
    pyStartsWith (pyStrip (formatMessage data.message)) "plugin/"

/-- `PluginManager.handle_plugin_messages(websocket, data, bot_id)` (source
lines 233-335).  The two `multilang_plugin_manager` sections raise
`ImportError` (the module is absent) and are skipped; the
`astrbot_plugin_bridge` patch hook runs when the patch is applied, its
exception caught and the flow continuing. -/
def handlePluginMessages (pm : PluginManager) (data : EventData)
    (botId : String) : Bool :=
  if onMessagePhase data pm.loadedPlugins then true
  else
    let astrbotHandled :=
      match pm.astrbot with
      | none => false
      | some f =>
        match f data with
        | .ok b => b
        | .error _ => false
    if astrbotHandled then true
    else if commandPathGuard data botId then
      let content := pyStrip (formatMessage data.message)
      let parts := pySplit2 content '/'
      if parts.length ≥ 2 then
        onCommandPhase data (parts.getD 1 "")
          (if parts.length > 2 then parts.getD 2 "" else "")
          pm.loadedPlugins
      else false
    else false

/-! ## Live dispatch path (`src/bot_manager.py`, `src/performance.py`)

Inbound message events reach processing through
`BotManager.handle_message`, which appends them to the shared
`MessageQueue` in arrival order (bot_manager.py line 155), and through
the three concurrent worker coroutines started by
`start_processors(self._process_message_from_queue, num_workers=3)`
(line 74).  Each worker loops `message = await self.queue.get()` followed
by `await processor_func(message, worker_id)`
(`MessageQueue._process_messages`, performance.py), and the processor
runs `MessageHandler.process_message` → `process_single_message`, which
suspends at several awaits (media download, plugin dispatch, command
handling) and takes no lock: the per-key isolation layer of
`message_handler.py` (`process_message_with_timeout`,
`handle_message_with_isolation`, `processing_locks`) is called nowhere in
the repository.  The model below is that worker pool over one
conversation key: `take w` is worker `w` dequeuing the next event and
starting its processing (at the suspension points inside the processor
the event loop may run any other worker); `finish w` is worker `w`
returning from the processor.  A ghost flag records whether two events
were ever in flight at once. -/

/-- One scheduler-visible step of the worker-pool dispatch loop. -/
inductive WStep
  | take (w : Nat)
  | finish (w : Nat)
  deriving DecidableEq, Repr

/-- State of the dispatch loop: the FIFO message queue (events named by
arrival index), what each of the three workers is processing, the
completion order, and the overlap flag. -/
structure WState where
  queue : List Nat
  workers : List (Option Nat)
  finished : List Nat
  overlapped : Bool
  deriving DecidableEq, Repr

/-- Number of workers currently inside the processor. -/
def busyCount (ws : List (Option Nat)) : Nat := ws.countP Option.isSome

/-- The guarded transition function: `none` when the step is not enabled. -/
def wStep (s : WState) : WStep → Option WState
  | .take w =>
    match s.workers.get? w, s.queue with
    | some none, e :: rest =>
      let workers2 := s.workers.set w (some e)
      some { s with queue := rest, workers := workers2,
                    overlapped := s.overlapped || decide (2 ≤ busyCount workers2) }
    | _, _ => none
  | .finish w =>
    match s.workers.get? w with
    | some (some e) =>
      some { s with workers := s.workers.set w none,
                    finished := s.finished ++ [e] }
    | _ => none

/-- Run a schedule of the worker pool. -/
def wRun (s : WState) : List WStep → Option WState
  | [] => some s
  | step :: rest =>
    match wStep s step with
    | some s2 => wRun s2 rest
    | none => none

/-- Two events of one conversation key already queued in arrival order,
the three workers of `start_processors(num_workers=3)` idle. -/
def WState.initTwo : WState :=
  { queue := [0, 1], workers := [none, none, none]
    finished := [], overlapped := false }

/-! ## Concrete inputs used by the theorems below -/

/-- Admission calls of the C4 scenario: install a per-user override of 30,
then 21 rapid admissions for one key. -/
def overrideOps : List RLOp :=
  RLOp.setLimit "u" 30 ::
    (List.range 21).map (fun i => RLOp.check "chat" (some "u") (i : Int))

/-- A private message whose text is the `/help` command. -/
def helpEvent : EventData :=
  { messageType := "private", message := [.textItem "/help"]
    senderUserId := "42", groupId := "" }

/-- The pipeline context `process_message_event` builds for `helpEvent`. -/
def helpCtx : PipelineContext :=
  { eventData := helpEvent, botId := "999", metadata := [] }

/-- A plugin whose `on_command` hook raises. -/
def throwingPlugin : Plugin :=
  { pluginName := "p", onMessage := none
    onCommand := some (fun _ _ => .error "boom") }

/-- A group message that at-mentions the bot and invokes
`plugin/p/c` — the at-bot plugin-command dispatch path. -/
def pluginCallData : EventData :=
  { messageType := "group"
    message := [.textItem "plugin/p/c", .atItem "999"]
    senderUserId := "42", groupId := "7" }

/-- A plugin whose `on_message` hook raises. -/
def raisingOnMessagePlugin : Plugin :=
  { pluginName := "q", onMessage := some (fun _ => .error "x")
    onCommand := none }

/-- A plain private message that no dispatch path handles. -/
def plainData : EventData :=
  { messageType := "private", message := [.textItem "hi"]
    senderUserId := "42", groupId := "" }

/-- A bus whose bounded queue (capacity 1) is already full. -/
def fullBus : BusQueue := { maxsize := 1, queued := [0], totalEvents := 1 }

/-- A stage that leaves the context untouched. -/
def okStageW : Stage :=
  { stageName := "StageA", canSkip := fun _ => false
    run := fun c => ⟨c, [], none⟩ }

/-- A stage that raises. -/
def failStageW : Stage :=
  { stageName := "StageB", canSkip := fun _ => false
    run := fun c => ⟨c, [], some "boom"⟩ }

/-- The result slot left by a sequence of listener return values when each
non-`None` value overwrites the slot (the `set_result` discipline of the
dispatch loop). -/
def lastStored (init : Option α) : List (Option α) → Option α
  | [] => init
  | some a :: rest => lastStored (some a) rest
  | none :: rest => lastStored init rest

/-- A simple context used to exercise the generic pipeline theorems. -/
def witnessCtx : PipelineContext :=
  { eventData := { messageType := "private", message := [.textItem "x"]
                   senderUserId := "1", groupId := "" }
    botId := "999", metadata := [] }

/-- A per-tracker bound: the deque capacity is at most `B` and the deque
respects its capacity. -/
def trackerOk (B : Nat) (tr : Tracker) : Prop :=
  tr.maxlen ≤ B ∧ tr.entries.length ≤ tr.maxlen

/-- The limiter-wide bound used to prove the window-size invariant: every
configured limit and every stored tracker is bounded by `B`. -/
def RLBound (B : Nat) (rl : RateLimiter) : Prop :=
  rl.burstLimit ≤ B ∧ rl.messageRateLimit.toNat ≤ B ∧
  (∀ p ∈ rl.userLimits, p.2.toNat ≤ B) ∧
  (∀ p ∈ rl.trackers, trackerOk B p.2)

end LinDream

namespace LinDream

/-!
## Theorems

Each claim of the specification is settled below; helper lemmas carry no
claim status of their own.
-/

/-- C1, counterexample.  Under the default configuration
(`message_rate_limit=10`, `burst_limit=20`), 25 rapid admission calls for
one key: the 21st call (index 20) is rejected by the plain rate-limit
branch, not the burst branch, and after all 25 calls no cooldown was ever
activated — because the maxlen adjustment caps the window at the effective
limit 10, which is below `burst_limit`, the burst branch is unreachable,
contradicting the claim that the 21st and later calls trigger cooldown
activation. -/
theorem checkRateLimit_call21_no_cooldown :
    (RateLimiter.init.runChecks "chat" none rapidTimes).2.getD 20 (.error "") =
      .ok (false, .rateLimited) ∧
    (RateLimiter.init.runChecks "chat" none rapidTimes).1.statsCooldownActivations = 0 ∧
    (RateLimiter.init.runChecks "chat" none rapidTimes).1.cooldowns = [] := by
  decide

/-- C1, amended.  In the 25-call scenario the first 10 calls are admitted;
calls 11 through 25 are all rejected by the rate-limit branch without
activating a cooldown (no cooldown can activate because the window is
capped at the effective limit, below `burst_limit`); after 5.2 seconds (5200 ms)
of idleness (more than `cooldown_period`) an admission call for the key
succeeds again. -/
theorem checkRateLimit_burst_scenario :
    (RateLimiter.init.runChecks "chat" none rapidTimes).2.take 10 =
      List.replicate 10 (.ok (true, .allowed)) ∧
    (RateLimiter.init.runChecks "chat" none rapidTimes).2.drop 10 =
      List.replicate 15 (.ok (false, .rateLimited)) ∧
    (RateLimiter.init.runChecks "chat" none rapidTimes).1.statsCooldownActivations = 0 ∧
    ((RateLimiter.init.runChecks "chat" none rapidTimes).1.checkRateLimit "chat" none
        5200).2 = .ok (true, .allowed) := by
  decide

/-- C4, counterexample.  After `set_user_limit("u", 30)` and 21 rapid
admissions for one key on behalf of that user, the stored rate window for
the key holds 21 timestamps, exceeding `burst_limit = 20`: the maxlen
adjustment re-creates the deque with the override as its capacity. -/
theorem rateWindow_exceeds_burst_limit :
    (alGet "chat" (RateLimiter.init.runOps overrideOps).trackers).map
        (fun tr => tr.entries.length) = some 21 ∧
    RateLimiter.init.burstLimit = 20 := by
  decide

/-- C9, counterexample.  `check_rate_limit` can raise: after
`set_user_limit("u", -1)`, the maxlen adjustment executes
`deque(old_tracker, maxlen=-1)`, which raises `ValueError`; the method has
no exception handler, so nothing fails open. -/
theorem checkRateLimit_raises_on_negative_limit :
    ((RateLimiter.init.setUserLimit "u" (-1)).checkRateLimit "chat" (some "u") 0).2 =
      .error "ValueError: maxlen must be non-negative" := by
  decide

/-- C6.  `EventBus.publish` on a full bounded queue: the awaited
`queue.put` suspends the publisher until a slot frees up; it never raises
`QueueFull` (only `put_nowait` does), so the drop-and-log handler is dead
code and the event is neither dropped nor logged. -/
theorem publish_blocks_on_full_queue :
    publish fullBus 1 = .blockedOnFullQueue := by
  decide

/-- C7, counterexample.  Two listeners returning 1 and 2: the dispatch
loop overwrites the event result on every non-null return, so the final
result is 2, not the first non-null value 1. -/
theorem dispatchEvent_last_value_wins_example :
    (dispatchEvent [pureListener (some (1 : Int)), pureListener (some 2)]
        ⟨false, none⟩).1.evResult = some 2 := by
  decide

/-- C2.  A `/help` command through the default pipeline: the Command stage
stashes the command result and stops the context, and `Pipeline.execute`
breaks out of the stage loop on `is_stopped` — so the Response stage never
runs and nothing is sent, even though a command result is present.  The
command-result branch of `ResponseStage.process` is unreachable through
`Pipeline.execute`. -/
theorem responseStage_skipped_after_command :
    (pipelineExecute (defaultPipeline none none helpCmdExec) helpCtx).executed =
      ["Preprocess", "ContentModeration", "Command"] ∧
    (pipelineExecute (defaultPipeline none none helpCmdExec) helpCtx).sends = [] ∧
    pyTruthyMeta ((pipelineExecute (defaultPipeline none none helpCmdExec)
        helpCtx).finalCtx.get "command_result") = true ∧
    (pipelineExecute (defaultPipeline none none helpCmdExec)
        helpCtx).finalCtx.isStopped = true := by
  decide

/-- C5, counterexample.  A group message at-mentioning the bot with text
`plugin/p/c`, where the only loaded plugin `p` has an `on_command` hook
that raises: the exception handler of the plugin-command path returns
`True`, so dispatch reports the event as handled although no handle
handled it — the raising handle is not treated as "did not handle". -/
theorem handlePluginMessages_true_on_raising_handle :
    handlePluginMessages ⟨[throwingPlugin], none⟩ pluginCallData "999" = true := by
  decide

/-- Helper: every context operation preserves a stopped flag and a
recorded error. -/
theorem ctxOps_keep_stopped_and_error (ops : List CtxOp) :
    ∀ c : PipelineContext, c.stopped = true → c.error.isSome = true →
      (applyCtxOps c ops).stopped = true ∧ (applyCtxOps c ops).error.isSome = true := by
  induction ops with
  | nil => exact fun c h1 h2 => ⟨h1, h2⟩
  | cons op rest ih =>
    intro c h1 h2
    cases op with
    | stopOp => exact ih _ rfl h2
    | setErrorOp e => exact ih _ rfl rfl
    | setOp k v => exact ih _ h1 h2

/-- Helper: a successful `alGet` locates a stored pair. -/
theorem alGet_mem {α : Type} :
    ∀ (l : List (String × α)) {k : String} {v : α}, alGet k l = some v → (k, v) ∈ l := by
  intro l
  induction l with
  | nil => intro k v h; cases h
  | cons q rest ih =>
    intro k v h
    obtain ⟨k2, v2⟩ := q
    rw [alGet] at h
    by_cases hk : k2 = k
    · rw [if_pos hk] at h
      cases h
      subst hk
      exact List.mem_cons_self _ _
    · rw [if_neg hk] at h
      exact List.mem_cons_of_mem _ (ih h)

/-- Helper: a pair of an updated association list is the new binding or an
old pair. -/
theorem alSet_mem {α : Type} :
    ∀ (l : List (String × α)) {k : String} {v : α} {p : String × α},
      p ∈ alSet k v l → p = (k, v) ∨ p ∈ l := by
  intro l
  induction l with
  | nil =>
    intro k v p hp
    rw [alSet] at hp
    exact Or.inl (List.mem_singleton.mp hp)
  | cons q rest ih =>
    intro k v p hp
    obtain ⟨k2, v2⟩ := q
    rw [alSet] at hp
    by_cases hk : k2 = k
    · rw [if_pos hk] at hp
      rcases List.mem_cons.mp hp with h | h
      · exact Or.inl h
      · exact Or.inr (List.mem_cons_of_mem _ h)
    · rw [if_neg hk] at hp
      rcases List.mem_cons.mp hp with h | h
      · exact Or.inr (h ▸ List.mem_cons_self _ _)
      · rcases ih h with h2 | h2
        · exact Or.inl h2
        · exact Or.inr (List.mem_cons_of_mem _ h2)

/-- Helper: `takeRight` returns at most `n` elements. -/
theorem takeRight_len {α : Type} (n : Nat) (l : List α) :
    (takeRight n l).length ≤ n := by
  simp only [takeRight, List.length_drop]
  omega

/-- Helper: eviction never grows the window. -/
theorem evictOld_len (now : Int) (l : List Int) :
    (evictOld now l).length ≤ l.length := by
  induction l with
  | nil => simp [evictOld]
  | cons t rest ih =>
    rw [evictOld]
    split
    · exact le_trans ih (by simp)
    · exact le_refl _

/-- Helper: bounded trackers stay bounded under an `alSet`. -/
theorem trackers_alSet_ok {B : Nat} {trs : List (String × Tracker)} {k : String}
    {tr : Tracker} (h : ∀ p ∈ trs, trackerOk B p.2) (htr : trackerOk B tr) :
    ∀ p ∈ alSet k tr trs, trackerOk B p.2 := by
  intro p hp
  rcases alSet_mem _ hp with h1 | h1
  · rw [h1]; exact htr
  · exact h _ h1

/-- Helper: a bounded-capacity push respects the bound. -/
theorem trackerOk_push {B : Nat} {tr : Tracker} (h1 : tr.maxlen ≤ B) (x : Int) :
    trackerOk B (tr.push x) :=
  ⟨h1, takeRight_len _ _⟩

/-- Helper: eviction preserves a tracker bound. -/
theorem trackerOk_evict {B : Nat} {tr : Tracker} (h : trackerOk B tr) (now : Int) :
    trackerOk B { tr with entries := evictOld now tr.entries } :=
  ⟨h.1, le_trans (evictOld_len _ _) h.2⟩

/-- Helper: a resize to a bounded capacity respects the bound. -/
theorem trackerOk_resize {B m : Nat} (tr : Tracker) (hm : m ≤ B) :
    trackerOk B (tr.resize m) :=
  ⟨hm, takeRight_len _ _⟩

/-- Helper: the effective limit of a bounded limiter is bounded. -/
theorem effectiveLimit_le {B : Nat} {rl : RateLimiter} (user : Option String)
    (hm : rl.messageRateLimit.toNat ≤ B) (hu : ∀ p ∈ rl.userLimits, p.2.toNat ≤ B) :
    (rl.effectiveLimit user).toNat ≤ B := by
  cases user with
  | none => exact hm
  | some u =>
    rw [RateLimiter.effectiveLimit]
    by_cases hne : u = ""
    · simp only [hne, ne_eq, not_true_eq_false, if_false]
      exact hm
    · simp only [ne_eq, hne, not_false_eq_true, if_true]
      rw [RateLimiter.getUserLimit]
      cases hg : alGet u rl.userLimits with
      | none => simpa using hm
      | some l => simpa using hu _ (alGet_mem _ hg)

/-- Helper: the stored or freshly created tracker of a bounded limiter is
bounded. -/
theorem trackerOk_getD {B : Nat} {rl : RateLimiter} (key : String)
    (hb : rl.burstLimit ≤ B) (ht : ∀ p ∈ rl.trackers, trackerOk B p.2) :
    trackerOk B ((alGet key rl.trackers).getD
      { maxlen := rl.burstLimit, entries := [] }) := by
  cases hg : alGet key rl.trackers with
  | none => exact ⟨hb, Nat.zero_le _⟩
  | some tr => simpa using ht _ (alGet_mem _ hg)

/-- Helper: `check_rate_limit` (after the cooldown check) preserves the
limiter-wide bound. -/
theorem RLBound_checkAfterCooldown (B : Nat) (rl : RateLimiter) (key : String)
    (user : Option String) (now : Int) (h : RLBound B rl) :
    RLBound B (rl.checkAfterCooldown key user now).1 := by
  obtain ⟨hb, hm, hu, ht⟩ := h
  have hel : (rl.effectiveLimit user).toNat ≤ B := effectiveLimit_le user hm hu
  have htr0 : trackerOk B ((alGet key rl.trackers).getD
      { maxlen := rl.burstLimit, entries := [] }) := trackerOk_getD key hb ht
  simp only [RateLimiter.checkAfterCooldown]
  repeat' split
  all_goals refine ⟨hb, hm, hu, ?_⟩
  all_goals first
    | exact trackers_alSet_ok ht htr0
    | exact trackers_alSet_ok (trackers_alSet_ok ht htr0)
        (trackerOk_evict (trackerOk_resize _ hel) now)
    | exact trackers_alSet_ok (trackers_alSet_ok ht htr0)
        (trackerOk_evict htr0 now)
    | exact trackers_alSet_ok
        (trackers_alSet_ok (trackers_alSet_ok ht htr0)
          (trackerOk_evict (trackerOk_resize _ hel) now))
        (trackerOk_push (trackerOk_evict (trackerOk_resize _ hel) now).1 now)
    | exact trackers_alSet_ok
        (trackers_alSet_ok (trackers_alSet_ok ht htr0)
          (trackerOk_evict htr0 now))
        (trackerOk_push (trackerOk_evict htr0 now).1 now)

/-- Helper: a full `check_rate_limit` call preserves the limiter-wide
bound. -/
theorem RLBound_checkRateLimit (B : Nat) (rl : RateLimiter) (key : String)
    (user : Option String) (now : Int) (h : RLBound B rl) :
    RLBound B (rl.checkRateLimit key user now).1 := by
  obtain ⟨hb, hm, hu, ht⟩ := h
  rw [RateLimiter.checkRateLimit]
  cases hg : alGet key { rl with statsTotal := rl.statsTotal + 1 }.cooldowns with
  | some t =>
    simp only []
    split
    · exact ⟨hb, hm, hu, ht⟩
    · exact RLBound_checkAfterCooldown B _ key user now ⟨hb, hm, hu, ht⟩
  | none =>
    exact RLBound_checkAfterCooldown B _ key user now ⟨hb, hm, hu, ht⟩

/-- Helper: running a call sequence whose overrides stay below `B`
preserves the limiter-wide bound. -/
theorem RLBound_runOps (B : Nat) (ops : List RLOp) :
    ∀ rl : RateLimiter, RLBound B rl →
      (∀ u l, RLOp.setLimit u l ∈ ops → l.toNat ≤ B) →
      RLBound B (rl.runOps ops) := by
  induction ops with
  | nil => exact fun rl h _ => h
  | cons op rest ih =>
    intro rl h hops
    cases op with
    | check k u t =>
      exact ih _ (RLBound_checkRateLimit B rl k u t h)
        (fun u2 l2 hm2 => hops u2 l2 (List.mem_cons_of_mem _ hm2))
    | setLimit u l =>
      refine ih _ ⟨h.1, h.2.1, ?_, h.2.2.2⟩
        (fun u2 l2 hm2 => hops u2 l2 (List.mem_cons_of_mem _ hm2))
      intro p hp
      rcases alSet_mem _ hp with h1 | h1
      · rw [h1]
        exact hops u l (List.mem_cons_self _ _)
      · exact h.2.2.1 _ h1

/-- Helper: an override appearing in a call sequence is bounded by
`opsMaxLimit`. -/
theorem opsMaxLimit_le (ops : List RLOp) :
    ∀ u l, RLOp.setLimit u l ∈ ops → l.toNat ≤ opsMaxLimit ops := by
  induction ops with
  | nil => intro u l h; cases h
  | cons op rest ih =>
    intro u l h
    rcases List.mem_cons.mp h with h1 | h1
    · subst h1
      rw [opsMaxLimit]
      exact Nat.le_max_left _ _
    · cases op with
      | check k us t => rw [opsMaxLimit]; exact ih u l h1
      | setLimit u2 l2 =>
        rw [opsMaxLimit]
        exact le_trans (ih u l h1) (Nat.le_max_right _ _)

/-- C4, amended.  For every sequence of admission and `set_user_limit`
calls against a fresh limiter, every stored rate window holds at most
`max burst_limit L` timestamps, where `L` is the largest installed
override: the window is bounded by its deque capacity, which the maxlen
adjustment can raise to a per-user override — above `burst_limit` when the
override exceeds it (see the counterexample), never beyond the largest
override. -/
theorem rateWindow_bounded_by_overrides (ops : List RLOp) (key : String)
    (tr : Tracker)
    (h : alGet key (RateLimiter.init.runOps ops).trackers = some tr) :
    tr.entries.length ≤ max RateLimiter.init.burstLimit (opsMaxLimit ops) := by
  have hinit : RLBound (max RateLimiter.init.burstLimit (opsMaxLimit ops))
      RateLimiter.init := by
    refine ⟨Nat.le_max_left _ _, ?_, ?_, ?_⟩
    · exact le_trans (by norm_num [RateLimiter.init]) (Nat.le_max_left _ _)
    · intro p hp; cases hp
    · intro p hp; cases hp
  have hfin := RLBound_runOps _ ops RateLimiter.init hinit
    (fun u l hm => le_trans (opsMaxLimit_le ops u l hm) (Nat.le_max_right _ _))
  have hmem := alGet_mem _ h
  have htr := hfin.2.2.2 _ hmem
  exact le_trans htr.2 htr.1

/-- C4, amended, witness: one admission call from a fresh limiter leaves a
one-entry window, within the bound. -/
theorem rateWindow_bounded_witness :
    alGet "chat" (RateLimiter.init.runOps [RLOp.check "chat" none 0]).trackers =
      some { maxlen := 10, entries := [0] } ∧
    ({ maxlen := 10, entries := [0] } : Tracker).entries.length ≤
      max RateLimiter.init.burstLimit (opsMaxLimit [RLOp.check "chat" none 0]) :=
  ⟨by decide, rateWindow_bounded_by_overrides [RLOp.check "chat" none 0] "chat"
    { maxlen := 10, entries := [0] } (by decide)⟩

/-- C9, amended.  `check_rate_limit` returns normally (never raises) as
long as the configured rate limit and every installed per-user override
are non-negative; there is no fail-open handler in the method, and with a
negative override it does raise (see the counterexample). -/
theorem checkRateLimit_total_of_nonneg (rl : RateLimiter) (key : String)
    (user : Option String) (now : Int)
    (hm : 0 ≤ rl.messageRateLimit)
    (hu : ∀ p ∈ rl.userLimits, 0 ≤ p.2) :
    ∃ v, (rl.checkRateLimit key user now).2 = .ok v := by
  have hel : ∀ rl2 : RateLimiter, rl2.messageRateLimit = rl.messageRateLimit →
      rl2.userLimits = rl.userLimits → ¬ rl2.effectiveLimit user < 0 := by
    intro rl2 he1 he2
    cases user with
    | none =>
      show ¬ rl2.messageRateLimit < 0
      rw [he1]; omega
    | some u =>
      show ¬ (if u ≠ "" then rl2.getUserLimit u else rl2.messageRateLimit) < 0
      by_cases hne : u = ""
      · rw [if_neg (by simp [hne])]
        rw [he1]; omega
      · rw [if_pos hne]
        rw [RateLimiter.getUserLimit, he2]
        cases hg : alGet u rl.userLimits with
        | none =>
          simp only [Option.getD_none]
          rw [he1]; omega
        | some l =>
          have := hu _ (alGet_mem _ hg)
          simp only [Option.getD_some]
          omega
  have hbody : ∀ rl2 : RateLimiter, rl2.messageRateLimit = rl.messageRateLimit →
      rl2.userLimits = rl.userLimits →
      ∃ v, (rl2.checkAfterCooldown key user now).2 = .ok v := by
    intro rl2 he1 he2
    simp only [RateLimiter.checkAfterCooldown]
    repeat' split
    all_goals first
      | exact ⟨_, rfl⟩
      | (rename_i hneg; exact absurd hneg (hel rl2 he1 he2))
      | (rename_i hne hneg; exact absurd hneg (hel rl2 he1 he2))
      | (rename_i hcond; exact absurd hcond.2 (hel rl2 he1 he2))
  rw [RateLimiter.checkRateLimit]
  cases hg : alGet key { rl with statsTotal := rl.statsTotal + 1 }.cooldowns with
  | some t =>
    simp only []
    split
    · exact ⟨_, rfl⟩
    · exact hbody _ rfl rfl
  | none =>
    exact hbody _ rfl rfl

/-- C9, amended, witness: a fresh limiter admits without raising. -/
theorem checkRateLimit_total_witness :
    (0 ≤ RateLimiter.init.messageRateLimit) ∧
    (∃ v, (RateLimiter.init.checkRateLimit "chat" none 0).2 = .ok v) :=
  ⟨by decide, checkRateLimit_total_of_nonneg RateLimiter.init "chat" none 0
    (by decide) (fun p hp => by cases hp)⟩

/-- C7, amended.  The dispatch loop writes every non-`None` listener
return value into the event with `set_result`, overwriting the previous
value: for listeners that plainly return values, the final result is the
last non-`None` return value (the initial result when there is none), not
the first. -/
theorem dispatchEvent_result_is_last {α : Type} (vals : List (Option α))
    (e : BusEvent α) (h : e.evStopped = false) :
    (dispatchEvent (vals.map pureListener) e).1.evResult =
      lastStored e.evResult vals := by
  induction vals generalizing e with
  | nil => rfl
  | cons v rest ih =>
    cases v with
    | none =>
      simp only [List.map, dispatchEvent, h, pureListener, Bool.false_eq_true,
        if_false, lastStored]
      exact ih e h
    | some a =>
      simp only [List.map, dispatchEvent, h, pureListener, Bool.false_eq_true,
        if_false, lastStored]
      exact ih ⟨false, some a⟩ rfl

/-- C7, amended, witness: three listeners returning 1, `None` and 2 leave
2 as the event result. -/
theorem dispatchEvent_result_is_last_witness :
    ((⟨false, none⟩ : BusEvent Int).evStopped = false) ∧
    (dispatchEvent ([some 1, none, some 2].map pureListener)
        (⟨false, none⟩ : BusEvent Int)).1.evResult =
      lastStored (none : Option Int) [some 1, none, some 2] :=
  ⟨rfl, dispatchEvent_result_is_last [some 1, none, some 2] ⟨false, none⟩ rfl⟩

/-- Helper: the on-message loop skips a plugin with no hook, a falsy
return, or a raising hook, and continues with the rest. -/
theorem onMessagePhase_false_of (data : EventData) :
    ∀ plugins : List Plugin,
      (∀ p ∈ plugins, ∀ f, p.onMessage = some f → f data ≠ .ok true) →
      onMessagePhase data plugins = false := by
  intro plugins
  induction plugins with
  | nil => intro _; rfl
  | cons p rest ih =>
    intro h
    have hrest := ih (fun q hq f hf => h q (List.mem_cons_of_mem _ hq) f hf)
    cases hpm : p.onMessage with
    | none => simp only [onMessagePhase, hpm]; exact hrest
    | some f =>
      cases hd : f data with
      | ok b =>
        cases b with
        | true => exact absurd hd (h p (List.mem_cons_self _ _) f hpm)
        | false => simp only [onMessagePhase, hpm, hd]; exact hrest
      | error msg => simp only [onMessagePhase, hpm, hd]; exact hrest

/-- C5, amended.  In the main on-message loop an exception from a handle
is caught and the handle treated as not having handled the event, so
dispatch continues with the next handle; and when no on-message handle
reports the event handled, no bridge patch is applied, and the at-bot
`plugin/<name>/<cmd>` fallback path is not taken, dispatch returns
`handled=false` — in that fallback path, however, an exception from the
named plugin makes dispatch return `handled=true` (see the
counterexample). -/
theorem plugin_dispatch_contained (pm : PluginManager) (data : EventData)
    (botId : String)
    (h1 : ∀ p ∈ pm.loadedPlugins, ∀ f, p.onMessage = some f → f data ≠ .ok true)
    (h2 : pm.astrbot = none)
    (h3 : commandPathGuard data botId = false) :
    handlePluginMessages pm data botId = false ∧
    (∀ (p : Plugin) (f : EventData → Except String Bool) (msg : String)
        (rest : List Plugin), p.onMessage = some f → f data = .error msg →
      onMessagePhase data (p :: rest) = onMessagePhase data rest) := by
  constructor
  · rw [handlePluginMessages, onMessagePhase_false_of data pm.loadedPlugins h1, h2]
    simp only [Bool.false_eq_true, if_false, h3]
  · intro p f msg rest hf herr
    simp only [onMessagePhase, hf, herr]

/-- C5, amended, witness: one plugin whose `on_message` raises, on a plain
private message: dispatch returns false. -/
theorem plugin_dispatch_contained_witness :
    commandPathGuard plainData "999" = false ∧
    handlePluginMessages ⟨[raisingOnMessagePlugin], none⟩ plainData "999" = false :=
  ⟨by decide,
    (plugin_dispatch_contained ⟨[raisingOnMessagePlugin], none⟩ plainData "999"
      (by
        intro p hp f hf
        rw [List.mem_singleton] at hp
        subst hp
        rw [show raisingOnMessagePlugin.onMessage =
          some (fun _ => Except.error "x") from rfl] at hf
        cases hf
        decide)
      rfl (by decide)).1⟩

/-- Helper: the stage loop does nothing on a stopped context. -/
theorem executeStages_stopped (l : List Stage) (ctx : PipelineContext)
    (h : ctx.isStopped = true) : executeStages l ctx = ⟨ctx, [], []⟩ := by
  cases l with
  | nil => rfl
  | cons s rest => rw [executeStages, h]; simp only [if_true]

/-- Helper: the stage loop processes a concatenation as the first list
followed by the second, threading the context. -/
theorem executeStages_append (l1 l2 : List Stage) (ctx : PipelineContext) :
    executeStages (l1 ++ l2) ctx =
      ⟨(executeStages l2 (executeStages l1 ctx).ctx).ctx,
       (executeStages l1 ctx).executed ++
         (executeStages l2 (executeStages l1 ctx).ctx).executed,
       (executeStages l1 ctx).sends ++
         (executeStages l2 (executeStages l1 ctx).ctx).sends⟩ := by
  induction l1 generalizing ctx with
  | nil => simp [executeStages]
  | cons s l1 ih =>
    cases hstop : ctx.isStopped with
    | true =>
      have hall : ∀ l : List Stage, executeStages l ctx = ⟨ctx, [], []⟩ :=
        fun l => executeStages_stopped l ctx hstop
      rw [List.cons_append, hall, hall, hall]
      simp
    | false =>
      cases hskip : s.canSkip ctx with
      | true =>
        rw [List.cons_append, executeStages, hstop, executeStages, hstop, hskip]
        simp only [Bool.false_eq_true, if_false, if_true]
        exact ih ctx
      | false =>
        rw [List.cons_append, executeStages, hstop, executeStages, hstop, hskip]
        simp only [Bool.false_eq_true, if_false]
        cases hexn : (s.run ctx).exn with
        | some e =>
          simp only [hexn, ih ((s.run ctx).ctx.setError e)]
          simp [List.append_assoc]
        | none =>
          simp only [hexn, ih (s.run ctx).ctx]
          simp [List.append_assoc]

/-- C8.  If, in a pipeline run, the stages before `s` leave the context
running and `s` raises an exception `e`, then `execute` records `e` as the
terminal error via `set_error`, runs no stage after `s` (the executed list
ends at `s`), and returns `success=false` with that error. -/
theorem stage_failure_fail_fast (pre post : List Stage) (s : Stage)
    (ctx : PipelineContext) (e : String)
    (h1 : (executeStages pre ctx).ctx.isStopped = false)
    (h2 : s.canSkip (executeStages pre ctx).ctx = false)
    (h3 : (s.run (executeStages pre ctx).ctx).exn = some e) :
    (pipelineExecute (pre ++ s :: post) ctx).success = false ∧
    (pipelineExecute (pre ++ s :: post) ctx).error = some e ∧
    (pipelineExecute (pre ++ s :: post) ctx).executed =
      (executeStages pre ctx).executed ++ [s.stageName] ∧
    (pipelineExecute (pre ++ s :: post) ctx).finalCtx =
      ((s.run (executeStages pre ctx).ctx).ctx).setError e := by
  have hmid : executeStages (s :: post) (executeStages pre ctx).ctx =
      ⟨((s.run (executeStages pre ctx).ctx).ctx).setError e,
       [s.stageName], (s.run (executeStages pre ctx).ctx).sends ++ []⟩ := by
    rw [executeStages, h1, h2]
    simp only [Bool.false_eq_true, if_false, h3]
    rw [executeStages_stopped post
      (((s.run (executeStages pre ctx).ctx).ctx).setError e) rfl]
  rw [pipelineExecute, executeStages_append, hmid]
  exact ⟨rfl, rfl, rfl, rfl⟩

/-- C8, witness: a pipeline of a harmless stage, a raising stage and a
trailing stage stops at the raising stage with the error recorded. -/
theorem stage_failure_fail_fast_witness :
    (executeStages [okStageW] witnessCtx).ctx.isStopped = false ∧
    ((pipelineExecute ([okStageW] ++ failStageW :: [okStageW])
        witnessCtx).success = false ∧
      (pipelineExecute ([okStageW] ++ failStageW :: [okStageW])
        witnessCtx).error = some "boom" ∧
      (pipelineExecute ([okStageW] ++ failStageW :: [okStageW])
        witnessCtx).executed =
        (executeStages [okStageW] witnessCtx).executed ++ [failStageW.stageName] ∧
      (pipelineExecute ([okStageW] ++ failStageW :: [okStageW])
        witnessCtx).finalCtx =
        ((failStageW.run (executeStages [okStageW] witnessCtx).ctx).ctx).setError
          "boom") :=
  ⟨rfl, stage_failure_fail_fast [okStageW] [okStageW] failStageW witnessCtx "boom"
    rfl rfl rfl⟩

/-- C3.  On the live dispatch path — the three concurrent `MessageQueue`
workers feeding `process_single_message`, with the per-key isolation
layer never invoked — two events of the same conversation key, queued in
arrival order, can be picked up by two workers and processed with
overlapping executions, completing in reverse arrival order: the schedule
below (worker 0 takes event 0, worker 1 takes event 1 while event 0 is
still in flight, worker 1 finishes first) is a valid run of the pool.
The serialization and arrival ordering the claim demands are absent from
the code. -/
theorem same_key_overlap_and_reorder :
    wRun WState.initTwo [.take 0, .take 1, .finish 1, .finish 0] =
      some { queue := [], workers := [none, none, none]
             finished := [1, 0], overlapped := true } := by
  decide

/-- C10.  Once `set_error` has been called on a pipeline context,
`is_stopped` is true and stays true under every further context operation
of the run, and `has_error` stays true with it. -/
theorem setError_stops_for_rest_of_run (ops : List CtxOp) (c : PipelineContext)
    (e : String) :
    (applyCtxOps (c.setError e) ops).isStopped = true ∧
    (applyCtxOps (c.setError e) ops).hasError = true :=
  ctxOps_keep_stopped_and_error ops (c.setError e) rfl rfl

end LinDream
